import Mathlib

/-!
Shallow embedding of `util/ns_evaluator.go` from `go-iscsi-helper`:
the fork-and-switch execution primitive `ForkAndSwitchToNamespace`,
its child-side namespace switcher `switchNs`, and the sentinel-terminated
pipe protocol between parent and child.

Byte sequences (Go `[]byte` / `string`) are modelled as `List Nat`.
Syscall outcomes (pipe, fork, open, setns, close, read, write, kill) are
inputs of the model, supplied in an environment record; the model computes
the outcome the Go code produces for those inputs, together with a trace
of the observable actions (clone, namespace steps, fd closes, kill, decode)
that the claims talk about.
-/

namespace NsEvaluator

/-- Go byte strings (`[]byte`, `string`) as lists of byte values. -/
abbrev Bytes := List Nat

/-- Bytes of an ASCII string literal. -/
def strB (s : String) : Bytes := s.toList.map Char.toNat

/-- The `"ok:"` tag of the result protocol (ns_evaluator.go line 137). -/
def okTag : Bytes := strB "ok:"

/-- The `"err:"` tag of the result protocol (ns_evaluator.go lines 131/135). -/
def errTag : Bytes := strB "err:"

/-- Sanity check: the `ok:` tag is the ASCII bytes of `ok:`. -/
theorem okTag_bytes : okTag = [111, 107, 58] := by decide

/-- Sanity check: the `err:` tag is the ASCII bytes of `err:`. -/
theorem errTag_bytes : errTag = [101, 114, 114, 58] := by decide

/-- Message of `errors.Wrapf(err, label)` from github.com/pkg/errors:
the label, then `": "`, then the cause's message. -/
def wrapMsg (label cause : Bytes) : Bytes := label ++ strB ": " ++ cause

/-- Stdlib `filepath.Join(dir, name)` modelled as `dir ++ "/" ++ name`;
path cleaning (collapsing of slashes and dots) is elided, since the model
only depends on which byte values the joined path contains. -/
def filepathJoin (dir name : Bytes) : Bytes := dir ++ strB "/" ++ name

/-- Model of `unix.BytePtrFromString`: it fails (with `EINVAL`) exactly when
the string contains a NUL byte, and otherwise yields the same bytes. -/
def bytePtrFromString (s : Bytes) : Except Unit Bytes :=
  if 0 ∈ s then .error () else .ok s

/-- The six syscall steps `switchNs` (ns_evaluator.go lines 219-254) can
attempt, in source order. -/
inductive NsStep where
  | openNet
  | setnsNet
  | closeNet
  | openMnt
  | setnsMnt
  | closeMnt
deriving DecidableEq, Repr

/-- Environment for the child's `switchNs` call: the outcome the kernel gives
each namespace syscall, were it attempted. `Except` carries the errno message
of a failed `open`; `Option` carries the errno message of a failed
`setns`/`close` (`some` = failure). -/
structure ChildEnv where
  openNetRes : Except Bytes Unit
  setnsNetRes : Option Bytes
  closeNetRes : Option Bytes
  openMntRes : Except Bytes Unit
  setnsMntRes : Option Bytes
  closeMntRes : Option Bytes
deriving Repr

/-- Error-message labels used by `switchNs` (ns_evaluator.go lines 227-250). -/
def openNetLabel : Bytes := strB "failed to open net namespace"

/-- Label of the `setns` failure on the net namespace (line 232). -/
def setnsNetLabel : Bytes := strB "failed to setns net namespace"

/-- Label of the `close` failure on the net namespace (line 236). -/
def closeNetLabel : Bytes := strB "failed to close net namespace"

/-- Label of the `open` failure on the mount namespace (line 241). -/
def openMntLabel : Bytes := strB "failed to open mount namespace"

/-- Label of the `setns` failure on the mount namespace (line 246). -/
def setnsMntLabel : Bytes := strB "failed to setns mount namespace"

/-- Label of the `close` failure on the mount namespace (line 250). -/
def closeMntLabel : Bytes := strB "failed to close mount namespace"

/-- Model of `switchNs` (ns_evaluator.go lines 219-254): open the net
namespace handle, join it, close it, then the same for the mount namespace,
failing fast with a wrapped error at the first failing step. Returns the
error (or `none` on success) together with the list of steps attempted, in
order. The extra `close_raw(fd)` on the `setns` failure paths (lines 231
and 245) is recorded as the corresponding close step being attempted. -/
def switchNs (env : ChildEnv) : Option Bytes × List NsStep :=
  match env.openNetRes with
  | .error e => (some (wrapMsg openNetLabel e), [.openNet])
  | .ok _ =>
    match env.setnsNetRes with
    | some e => (some (wrapMsg setnsNetLabel e), [.openNet, .setnsNet, .closeNet])
    | none =>
      match env.closeNetRes with
      | some e => (some (wrapMsg closeNetLabel e), [.openNet, .setnsNet, .closeNet])
      | none =>
        match env.openMntRes with
        | .error e =>
          (some (wrapMsg openMntLabel e),
           [.openNet, .setnsNet, .closeNet, .openMnt])
        | .ok _ =>
          match env.setnsMntRes with
          | some e =>
            (some (wrapMsg setnsMntLabel e),
             [.openNet, .setnsNet, .closeNet, .openMnt, .setnsMnt, .closeMnt])
          | none =>
            match env.closeMntRes with
            | some e =>
              (some (wrapMsg closeMntLabel e),
               [.openNet, .setnsNet, .closeNet, .openMnt, .setnsMnt, .closeMnt])
            | none =>
              (none, [.openNet, .setnsNet, .closeNet, .openMnt, .setnsMnt, .closeMnt])

/-- Child-side encoding of the result message (ns_evaluator.go lines
115-141): if `switchNs` failed, or (otherwise) the caller's logic returned a
non-nil error, the message is `err:` ++ the error text; otherwise the child
marshals the logic's `*T` result (a nil pointer marshals to `null`):
a marshal error becomes an `err:` message, a marshalled payload an `ok:`
message. A trailing NUL byte is appended (line 141). `logicOut`/`logicErr`
are the two return values of `toExecute()`; the error is checked first
(line 129), so `logicOut` is ignored when `logicErr` is `some`. -/
def childMsg (marshal : Option T → Except Bytes Bytes) (env : ChildEnv)
    (logicOut : Option T) (logicErr : Option Bytes) : Bytes :=
  let swErr := (switchNs env).1
  let outErr : Option T × Option Bytes :=
    match swErr with
    | some e => (none, some e)
    | none => (logicOut, logicErr)
  match outErr.2 with
  | some e => errTag ++ e ++ [0]
  | none =>
    match marshal outErr.1 with
    | .error e => errTag ++ e ++ [0]
    | .ok base => okTag ++ base ++ [0]

/-- Outcome of one raw `read` on the pipe, as seen by the parent's reader
goroutine (ns_evaluator.go lines 61-66): either a chunk of bytes (`[]` is a
zero-byte read, i.e. EOF after the peer closed), or a read error. -/
inductive ReadResult where
  | chunk (c : Bytes)
  | fail
deriving DecidableEq, Repr

/-- Result of the parent's reader goroutine: the bytes it sends on `done`,
and whether it closed the read end of the pipe before sending. -/
structure ReaderOut where
  delivered : Bytes
  closedRead : Bool
deriving DecidableEq, Repr

/-- The parent's reader goroutine (ns_evaluator.go lines 51-74), as a
function of the accumulated bytes and the sequence of read outcomes the
pipe produces. On a read error it sends `nil` (modelled `[]`) without
closing the read end (lines 62-66). After a successful read it stops as
soon as the read returned zero bytes or the accumulated buffer contains a
NUL byte, closing the read end and delivering the whole accumulated buffer
(lines 67-73); otherwise it reads again. If the outcomes run out without
the loop breaking, the goroutine is still blocked in `read` (`none`).
The geometric growth of the Go-side buffer (lines 52-60) only affects how
many bytes one read may return, not which bytes accumulate, so the model
keeps the accumulated bytes directly. -/
def readerLoop (acc : Bytes) : List ReadResult → Option ReaderOut
  | [] => none
  | .fail :: _ => some ⟨[], false⟩
  | .chunk c :: rest =>
    let acc' := acc ++ c
    if c.length = 0 ∨ 0 ∈ acc' then some ⟨acc', true⟩
    else readerLoop acc' rest

/-- One raw read on the pipe as the environment schedules it: `size n`
is a read that the kernel lets return up to `n` bytes of the not yet
consumed stream (a faithful schedule has `1 ≤ n`: a read returns at least
one byte whenever data is available, and `0` only at end-of-file, which
the model produces by itself once the stream is exhausted); `fail` is a
read error. -/
inductive ReadEvent where
  | size (n : Nat)
  | fail
deriving DecidableEq, Repr

/-- Bytes each scheduled read returns, given the stream of bytes the child
put into the pipe before closing its write end: each `size n` read consumes
up to `n` bytes of what remains (an empty chunk once the stream is
exhausted models the zero-byte end-of-file read); a `fail` read consumes
nothing. -/
def pipeReads (stream : Bytes) : List ReadEvent → List ReadResult
  | [] => []
  | .fail :: rest => .fail :: pipeReads stream rest
  | .size n :: rest => .chunk (stream.take n) :: pipeReads (stream.drop n) rest

/-- The value `ForkAndSwitchToNamespace`'s parent branch produces from the
`select` (ns_evaluator.go lines 76-105). Each constructor is one `return`
statement, except `panicOutOfBounds`, which models the runtime panic of
`buf[len(buf)-1]` on an empty buffer (line 79): that path returns nothing.
`ok v` is `return &unmarshalled, nil` (line 94) — the returned pointer is
the address of a local, hence never nil; `errMsg m` is
`return nil, errors.New(m)` for an `err:`-tagged message (line 86);
`unmarshalErr` is the `json.Unmarshal` failure return (line 91);
`unknownResponse out` is line 96; `invalidTermination` is
`errors.New("invalid termination character, not NUL")` (line 80); `timeout`
is `errors.New("ForkAndSwitchToNamespace timed out")` (line 104). -/
inductive ParentResult (T : Type) where
  | ok (v : T)
  | errMsg (m : Bytes)
  | unmarshalErr
  | unknownResponse (out : Bytes)
  | invalidTermination
  | timeout
  | panicOutOfBounds
deriving DecidableEq, Repr

/-- Parent-side decoding of a delivered buffer (ns_evaluator.go lines
77-96). `unm p z` models `json.Unmarshal(p, &unmarshalled)` run on a fresh
zero value `z` of `T`: `some v` is success leaving `v` in the variable,
`none` is an unmarshal error. An empty buffer panics at `buf[len(buf)-1]`;
a non-NUL final byte is the `invalid termination` error; otherwise the NUL
is stripped and the `err:` tag is tested before the `ok:` tag. -/
def decodeBuf (unm : Bytes → T → Option T) (zeroT : T) (buf : Bytes) :
    ParentResult T :=
  match buf.getLast? with
  | none => .panicOutOfBounds
  | some b =>
    if b ≠ 0 then .invalidTermination
    else
      let out := buf.dropLast
      if errTag.isPrefixOf out then .errMsg (out.drop errTag.length)
      else if okTag.isPrefixOf out then
        match unm (out.drop okTag.length) zeroT with
        | some v => .ok v
        | none => .unmarshalErr
      else .unknownResponse out

/-- Observable actions of the parent's `select` branch: decoding a delivered
message (lines 77-96) or attempting `unix.Kill` on the child (line 100). -/
inductive PAct where
  | decode
  | kill
deriving DecidableEq, Repr

/-- The two ends of the pipe created at line 32: `readEnd` is `pipes[0]`,
`writeEnd` is `pipes[1]`. -/
inductive PipeEnd where
  | readEnd
  | writeEnd
deriving DecidableEq, Repr

/-- Caller-visible outcome of a whole `ForkAndSwitchToNamespace` call.
`nulPathErr` is the `unix.BytePtrFromString` error return (lines 23/27);
`pipeFail` is `errors.Wrapf(err, "failed to init pipes")` (line 34);
`forkFail` is `errors.Wrapf(err, "failed to fork")` (line 41); `blocked`
means the parent is still waiting (reader never delivers and the deadline
has not fired — unreachable for a finite timeout); `parent r` is the parent
branch's result. -/
inductive CallOutcome (T : Type) where
  | nulPathErr
  | pipeFail
  | forkFail
  | blocked
  | parent (r : ParentResult T)
deriving DecidableEq, Repr

/-- Environment of one whole call: the namespace path argument and the
outcome of every external interaction the call performs. `writeCut` models
the child's write loop stopping early (a write error breaks the loop at
lines 146-148, or the child dies mid-write): `some k` means only the first
`k` bytes of the encoded message reach the pipe, `none` means all of it
does. `readPlan` schedules the reader goroutine's raw reads.
`deadlineFirst` tells which `select` arm fires first (`time.After` wins
iff it is `true`; it can only be `false` when the reader actually
delivers); `killOk` is the outcome of `unix.Kill` on the timeout path. -/
structure CallIn (T : Type) where
  ns : Bytes
  pipeOk : Bool
  forkOk : Bool
  cenv : ChildEnv
  logicOut : Option T
  logicErr : Option Bytes
  writeCut : Option Nat
  readPlan : List ReadEvent
  deadlineFirst : Bool
  killOk : Bool

/-- Trace of the observable actions of one call. `cloned`: the fork
syscall succeeded and a child process was created. `nsSteps`: namespace
syscall steps the child attempted. `logicRan`: the child invoked
`toExecute` (line 122-124). `parentActs`: the parent `select` branch's
actions. `parentCloses`: pipe ends the parent process explicitly closes
(line 47 and, in the reader goroutine, line 72), in order. `childCloses`:
pipe ends the child branch explicitly closes (line 151 only — the child
branch contains no `close_raw(pipes[0])`). `killAttempt`: the parent called
`unix.Kill` on the child. `killFailLogged`: that kill failed and was
logged (lines 101-103). -/
structure Trace where
  cloned : Bool
  nsSteps : List NsStep
  logicRan : Bool
  parentActs : List PAct
  parentCloses : List PipeEnd
  childCloses : List PipeEnd
  killAttempt : Bool
  killFailLogged : Bool
deriving DecidableEq, Repr

/-- Trace of a call that returns before the fork syscall succeeds:
nothing is cloned, attempted, or closed (in particular, the early error
returns at lines 23, 27, 34 and 41 close no file descriptor). -/
def emptyTrace : Trace :=
  { cloned := false, nsSteps := [], logicRan := false, parentActs := [],
    parentCloses := [], childCloses := [], killAttempt := false,
    killFailLogged := false }

/-- The byte stream the child puts into the pipe: its encoded message,
truncated at `writeCut` if its write loop stopped early. -/
def childStream (marshal : Option T → Except Bytes Bytes) (c : CallIn T) :
    Bytes :=
  match c.writeCut with
  | none => childMsg marshal c.cenv c.logicOut c.logicErr
  | some k => (childMsg marshal c.cenv c.logicOut c.logicErr).take k

/-- The interaction after a successful fork (ns_evaluator.go lines 45-156):
the child switches namespaces, runs the logic if switching succeeded,
encodes the outcome, writes it and closes only its write end; the parent
closes its write-end copy at once, runs the reader goroutine and races it
against the deadline — killing the child and returning the timeout error
(without decoding) if the deadline fires first, and otherwise decoding the
delivered buffer. The reader closes the read end exactly when its loop
breaks (line 72), not when a read fails. -/
def postClone (marshal : Option T → Except Bytes Bytes)
    (unm : Bytes → T → Option T) (zeroT : T) (c : CallIn T) :
    CallOutcome T × Trace :=
  let sw := switchNs c.cenv
  let rd := readerLoop [] (pipeReads (childStream marshal c) c.readPlan)
  let pcloses := PipeEnd.writeEnd ::
    (match rd with
     | some r => if r.closedRead then [PipeEnd.readEnd] else []
     | none => [])
  if c.deadlineFirst then
    (.parent .timeout,
     { cloned := true, nsSteps := sw.2, logicRan := sw.1.isNone,
       parentActs := [.kill], parentCloses := pcloses,
       childCloses := [.writeEnd], killAttempt := true,
       killFailLogged := !c.killOk })
  else
    match rd with
    | none => (.blocked,
        { cloned := true, nsSteps := sw.2, logicRan := sw.1.isNone,
          parentActs := [], parentCloses := pcloses,
          childCloses := [.writeEnd], killAttempt := false,
          killFailLogged := false })
    | some r =>
      (.parent (decodeBuf unm zeroT r.delivered),
       { cloned := true, nsSteps := sw.2, logicRan := sw.1.isNone,
         parentActs := [.decode], parentCloses := pcloses,
         childCloses := [.writeEnd], killAttempt := false,
         killFailLogged := false })

/-- Model of `ForkAndSwitchToNamespace` (ns_evaluator.go lines 20-157).
Steps, in source order: build the two namespace handle paths with
`filepath.Join` and `unix.BytePtrFromString` (fails only on a NUL byte in
the path, and returns that error directly); create the pipe; fork (on
failure return the wrapped `failed to fork` error — closing nothing); then
run the parent/child interaction `postClone`. -/
def ForkAndSwitchToNamespace (marshal : Option T → Except Bytes Bytes)
    (unm : Bytes → T → Option T) (zeroT : T) (c : CallIn T) :
    CallOutcome T × Trace :=
  match bytePtrFromString (filepathJoin c.ns (strB "mnt")) with
  | .error _ => (.nulPathErr, emptyTrace)
  | .ok _ =>
  match bytePtrFromString (filepathJoin c.ns (strB "net")) with
  | .error _ => (.nulPathErr, emptyTrace)
  | .ok _ =>
  if c.pipeOk = false then (.pipeFail, emptyTrace)
  else if c.forkOk = false then (.forkFail, emptyTrace)
  else postClone marshal unm zeroT c

/-! Helper lemmas about the protocol functions. -/

theorem errTag_not_prefixOf_ok (base : Bytes) :
    errTag.isPrefixOf (okTag ++ base) = false := rfl

theorem okTag_prefixOf_ok (base : Bytes) :
    okTag.isPrefixOf (okTag ++ base) = true := by
  rw [List.isPrefixOf_iff_prefix]
  exact List.prefix_append _ _

theorem errTag_prefixOf_err (e : Bytes) :
    errTag.isPrefixOf (errTag ++ e) = true := by
  rw [List.isPrefixOf_iff_prefix]
  exact List.prefix_append _ _

/-- Decoding a well-formed `ok:`-tagged, NUL-terminated message strips the
framing and runs the unmarshaller on the payload. -/
theorem decodeBuf_okMsg (unm : Bytes → T → Option T) (zeroT : T) (base : Bytes) :
    decodeBuf unm zeroT (okTag ++ base ++ [0]) =
      match unm base zeroT with
      | some v => ParentResult.ok v
      | none => ParentResult.unmarshalErr := by
  have h1 : okTag ++ base ++ [0] = (okTag ++ base) ++ [0] := by
    rw [List.append_assoc]
  have hdrop : (okTag ++ base).drop okTag.length = base := rfl
  simp only [decodeBuf, h1, List.getLast?_concat, List.dropLast_concat,
    errTag_not_prefixOf_ok, okTag_prefixOf_ok, hdrop]
  simp

/-- Decoding a well-formed `err:`-tagged, NUL-terminated message yields the
error with the carried message text. -/
theorem decodeBuf_errMsg (unm : Bytes → T → Option T) (zeroT : T) (e : Bytes) :
    decodeBuf unm zeroT (errTag ++ e ++ [0]) = ParentResult.errMsg e := by
  have h1 : errTag ++ e ++ [0] = (errTag ++ e) ++ [0] := by
    rw [List.append_assoc]
  have hdrop : (errTag ++ e).drop errTag.length = e := rfl
  simp only [decodeBuf, h1, List.getLast?_concat, List.dropLast_concat,
    errTag_prefixOf_err, hdrop]
  simp

/-- Decoding the empty buffer is the out-of-bounds panic. -/
theorem decodeBuf_nil (unm : Bytes → T → Option T) (zeroT : T) :
    decodeBuf unm zeroT [] = ParentResult.panicOutOfBounds := rfl

/-- Decoding any non-empty buffer whose last byte is not NUL is the
`invalid termination` protocol error, whatever came before it. -/
theorem decodeBuf_badLast (unm : Bytes → T → Option T) (zeroT : T)
    (buf : Bytes) (b : Nat) (hlast : buf.getLast? = some b) (hb : b ≠ 0) :
    decodeBuf unm zeroT buf = ParentResult.invalidTermination := by
  simp only [decodeBuf, hlast]
  simp [hb]

/-- The child's message when `switchNs` failed. -/
theorem childMsg_switchErr (marshal : Option T → Except Bytes Bytes)
    (env : ChildEnv) (lo : Option T) (le : Option Bytes) (e : Bytes)
    (h : (switchNs env).1 = some e) :
    childMsg marshal env lo le = errTag ++ e ++ [0] := by
  simp [childMsg, h]

/-- The child's message when namespace switching succeeded and the logic
returned a non-nil error. -/
theorem childMsg_logicErr (marshal : Option T → Except Bytes Bytes)
    (env : ChildEnv) (lo : Option T) (e : Bytes)
    (h : (switchNs env).1 = none) :
    childMsg marshal env lo (some e) = errTag ++ e ++ [0] := by
  simp [childMsg, h]

/-- The child's message when switching succeeded, the logic succeeded and
the marshaller produced a payload. -/
theorem childMsg_okPayload (marshal : Option T → Except Bytes Bytes)
    (env : ChildEnv) (lo : Option T) (base : Bytes)
    (h : (switchNs env).1 = none) (hm : marshal lo = .ok base) :
    childMsg marshal env lo none = okTag ++ base ++ [0] := by
  simp [childMsg, h, hm]

/-- The child's message when switching succeeded, the logic succeeded, but
marshalling its result failed. -/
theorem childMsg_marshalErr (marshal : Option T → Except Bytes Bytes)
    (env : ChildEnv) (lo : Option T) (e : Bytes)
    (h : (switchNs env).1 = none) (hm : marshal lo = .error e) :
    childMsg marshal env lo none = errTag ++ e ++ [0] := by
  simp [childMsg, h, hm]

/-- A raw read that is a genuine read of at least one byte: not a read
error, and not a zero-length read forced by the schedule itself. -/
def goodEvent : ReadEvent → Prop
  | .size n => 1 ≤ n
  | .fail => False

instance (e : ReadEvent) : Decidable (goodEvent e) :=
  match e with
  | .size n => inferInstanceAs (Decidable (1 ≤ n))
  | .fail => inferInstanceAs (Decidable False)

/-- A schedule of raw reads in which every read is a genuine read of at
least one byte: no read errors, no zero-length reads forced by the
schedule itself. -/
def GoodPlan (plan : List ReadEvent) : Prop :=
  ∀ e ∈ plan, goodEvent e

instance (plan : List ReadEvent) : Decidable (GoodPlan plan) :=
  inferInstanceAs (Decidable (∀ e ∈ plan, goodEvent e))

/-- Delivery lemma for the reader goroutine: if the pipe holds exactly the
stream `body ++ [0]` with the NUL only at the end, and the read schedule
has no errors, only reads of at least one byte, and at least as many reads
as there are bytes, then the reader loop terminates, closes the read end,
and delivers the whole stream. -/
theorem readerLoop_delivers (body : Bytes) (hbody : (0 : Nat) ∉ body) :
    ∀ (plan : List ReadEvent) (acc stream : Bytes),
      GoodPlan plan →
      stream ≠ [] →
      stream.length ≤ plan.length →
      (0 : Nat) ∉ acc →
      acc ++ stream = body ++ [0] →
      readerLoop acc (pipeReads stream plan) = some ⟨body ++ [0], true⟩ := by
  intro plan
  induction plan with
  | nil =>
    intro acc stream _ hne hlen _ _
    exact absurd (List.eq_nil_of_length_eq_zero (Nat.le_zero.mp hlen))
      hne
  | cons e rest ih =>
    intro acc stream hgood hne hlen hacc hsplit
    have hge := hgood e (List.mem_cons_self e rest)
    obtain ⟨n, rfl⟩ : ∃ n, e = ReadEvent.size n := by
      cases e with
      | size n => exact ⟨n, rfl⟩
      | fail => exact absurd hge (by simp [goodEvent])
    have hn : 1 ≤ n := hge
    rw [pipeReads, readerLoop]
    by_cases hcover : stream.length ≤ n
    · rw [List.take_of_length_le hcover]
      have hmem : (0 : Nat) ∈ acc ++ stream := by
        rw [hsplit]
        exact List.mem_append_right _ (List.mem_singleton_self 0)
      rw [if_pos (Or.inr hmem), hsplit]
    · push_neg at hcover
      have htake : (stream.take n).length = n := by
        rw [List.length_take]
        exact Nat.min_eq_left (Nat.le_of_lt hcover)
      have hdropne : stream.drop n ≠ [] := by
        intro hcontra
        have := List.length_drop n stream ▸ congrArg List.length hcontra
        simp at this
        omega
      have hsplit' : (acc ++ stream.take n) ++ stream.drop n = body ++ [0] := by
        rw [List.append_assoc, List.take_append_drop]
        exact hsplit
      have haccne : (0 : Nat) ∉ acc ++ stream.take n := by
        obtain ⟨r2, last, hr⟩ :=
          (List.eq_nil_or_concat (stream.drop n)).resolve_left hdropne
        rw [hr, List.concat_eq_append, ← List.append_assoc] at hsplit'
        obtain ⟨hpre, _⟩ := List.append_inj' hsplit' rfl
        intro hmem
        exact hbody (hpre ▸ List.mem_append_left r2 hmem)
      have hcond : ¬((stream.take n).length = 0 ∨ (0 : Nat) ∈ acc ++ stream.take n) := by
        rintro (hzero | hmem)
        · rw [htake] at hzero
          omega
        · exact haccne hmem
      rw [if_neg hcond]
      refine ih (acc ++ stream.take n) (stream.drop n)
        (fun x hx => hgood x (List.mem_cons_of_mem _ hx)) hdropne ?_ haccne hsplit'
      rw [List.length_drop]
      have := hlen
      simp only [List.length_cons] at this
      omega

/-- `unix.BytePtrFromString` succeeds on a joined path when neither the
directory nor the entry name contains a NUL byte. -/
theorem bytePtrFromString_join (dir nm : Bytes) (h1 : (0 : Nat) ∉ dir)
    (h2 : (0 : Nat) ∉ nm) :
    bytePtrFromString (filepathJoin dir nm) = .ok (filepathJoin dir nm) := by
  rw [bytePtrFromString, if_neg]
  intro hmem
  rw [filepathJoin] at hmem
  rcases List.mem_append.mp hmem with h | h
  · rcases List.mem_append.mp h with h | h
    · exact h1 h
    · exact absurd h (by decide)
  · exact h2 h

/-- When the namespace path has no NUL byte and the pipe and fork syscalls
succeed, the call reduces to the post-clone parent/child interaction. -/
theorem ForkAndSwitchToNamespace_postClone
    (marshal : Option T → Except Bytes Bytes) (unm : Bytes → T → Option T)
    (zeroT : T) (c : CallIn T) (hns : (0 : Nat) ∉ c.ns)
    (hp : c.pipeOk = true) (hf : c.forkOk = true) :
    ForkAndSwitchToNamespace marshal unm zeroT c =
      postClone marshal unm zeroT c := by
  rw [ForkAndSwitchToNamespace,
    bytePtrFromString_join c.ns (strB "mnt") hns (by decide),
    bytePtrFromString_join c.ns (strB "net") hns (by decide), hp, hf]
  simp

/-- Composition lemma: when the fork succeeds, the child's write loop
completes, the read schedule is well-formed and long enough, and the
reader wins the race against the deadline, the call's result is exactly
the decode of the child's whole message, with the standard post-clone
trace (clone happened, parent decoded, parent closed write then read end,
child closed only the write end). -/
theorem call_decodes_msg (marshal : Option T → Except Bytes Bytes)
    (unm : Bytes → T → Option T) (zeroT : T) (c : CallIn T)
    (hns : (0 : Nat) ∉ c.ns) (hp : c.pipeOk = true) (hf : c.forkOk = true)
    (hdl : c.deadlineFirst = false) (hwc : c.writeCut = none)
    (body : Bytes)
    (hmsg : childMsg marshal c.cenv c.logicOut c.logicErr = body ++ [0])
    (hbody : (0 : Nat) ∉ body)
    (hplan : GoodPlan c.readPlan)
    (hlen : (body ++ [0]).length ≤ c.readPlan.length) :
    ForkAndSwitchToNamespace marshal unm zeroT c =
      (.parent (decodeBuf unm zeroT (body ++ [0])),
       { cloned := true, nsSteps := (switchNs c.cenv).2,
         logicRan := ((switchNs c.cenv).1).isNone,
         parentActs := [.decode],
         parentCloses := [.writeEnd, .readEnd],
         childCloses := [.writeEnd], killAttempt := false,
         killFailLogged := false }) := by
  rw [ForkAndSwitchToNamespace_postClone marshal unm zeroT c hns hp hf]
  have hstream : childStream marshal c = body ++ [0] := by
    rw [childStream, hwc, hmsg]
  have hrd : readerLoop [] (pipeReads (childStream marshal c) c.readPlan) =
      some ⟨body ++ [0], true⟩ := by
    rw [hstream]
    exact readerLoop_delivers body hbody c.readPlan [] (body ++ [0]) hplan
      (by simp) hlen (by simp) rfl
  rw [postClone]
  simp only [hrd, hdl]
  simp

/-- Composition lemma for a successful run: if namespace switching
succeeded, the logic returned without error, its result marshalled to a
NUL-free payload, and the unmarshaller recovers `w` from that payload,
then the call returns `w` (as the non-nil pointer return of line 94). -/
theorem call_delivers_ok (marshal : Option T → Except Bytes Bytes)
    (unm : Bytes → T → Option T) (zeroT : T) (c : CallIn T)
    (hns : (0 : Nat) ∉ c.ns) (hp : c.pipeOk = true) (hf : c.forkOk = true)
    (hdl : c.deadlineFirst = false) (hwc : c.writeCut = none)
    (hsw : (switchNs c.cenv).1 = none) (hle : c.logicErr = none)
    (base : Bytes) (hm : marshal c.logicOut = .ok base)
    (hnul : (0 : Nat) ∉ base) (w : T) (hun : unm base zeroT = some w)
    (hplan : GoodPlan c.readPlan)
    (hlen : (okTag ++ base ++ [0]).length ≤ c.readPlan.length) :
    (ForkAndSwitchToNamespace marshal unm zeroT c).1 =
      .parent (.ok w) := by
  have hmsg : childMsg marshal c.cenv c.logicOut c.logicErr =
      (okTag ++ base) ++ [0] := by
    rw [hle, childMsg_okPayload marshal c.cenv c.logicOut base hsw hm,
      List.append_assoc]
  have hbody : (0 : Nat) ∉ okTag ++ base := by
    intro h
    rcases List.mem_append.mp h with h | h
    · exact absurd h (by decide)
    · exact hnul h
  rw [call_decodes_msg marshal unm zeroT c hns hp hf hdl hwc
    (okTag ++ base) hmsg hbody hplan (by simpa using hlen)]
  have h1 : (okTag ++ base) ++ [0] = okTag ++ base ++ [0] :=
    List.append_assoc _ _ _
  rw [h1, decodeBuf_okMsg, hun]

/-- Composition lemma for an error run: if the child's message carries an
`err:` tag with a NUL-free text `m`, the call returns the error decode
carrying exactly `m`. -/
theorem call_relays_errMsg (marshal : Option T → Except Bytes Bytes)
    (unm : Bytes → T → Option T) (zeroT : T) (c : CallIn T)
    (hns : (0 : Nat) ∉ c.ns) (hp : c.pipeOk = true) (hf : c.forkOk = true)
    (hdl : c.deadlineFirst = false) (hwc : c.writeCut = none)
    (m : Bytes)
    (hmsg : childMsg marshal c.cenv c.logicOut c.logicErr = errTag ++ m ++ [0])
    (hnul : (0 : Nat) ∉ m)
    (hplan : GoodPlan c.readPlan)
    (hlen : (errTag ++ m ++ [0]).length ≤ c.readPlan.length) :
    (ForkAndSwitchToNamespace marshal unm zeroT c).1 =
      .parent (.errMsg m) := by
  have hbody : (0 : Nat) ∉ errTag ++ m := by
    intro h
    rcases List.mem_append.mp h with h | h
    · exact absurd h (by decide)
    · exact hnul h
  rw [call_decodes_msg marshal unm zeroT c hns hp hf hdl hwc
    (errTag ++ m) (by rw [hmsg, List.append_assoc]) hbody hplan
    (by simpa using hlen)]
  have h1 : (errTag ++ m) ++ [0] = errTag ++ m ++ [0] :=
    List.append_assoc _ _ _
  rw [h1, decodeBuf_errMsg]

/-! Concrete instances used to exercise the model at specific inputs. -/

/-- A concrete result type for concrete runs: `T = bool`, with the
encodings Go's `encoding/json` gives a `*bool`: `nil` marshals to `null`,
a pointed-to value to `true`/`false`. -/
def boolMarshal : Option Bool → Except Bytes Bytes
  | none => .ok (strB "null")
  | some true => .ok (strB "true")
  | some false => .ok (strB "false")

/-- Concrete model of `json.Unmarshal` into a fresh `bool` variable:
`true`/`false` set the variable, `null` is a no-op that leaves the zero
value unchanged, anything else is an unmarshal error. -/
def boolUnm : Bytes → Bool → Option Bool := fun p z =>
  if p = strB "true" then some true
  else if p = strB "false" then some false
  else if p = strB "null" then some z
  else none

/-- A child environment in which all six namespace syscalls succeed. -/
def okChildEnv : ChildEnv :=
  { openNetRes := .ok (), setnsNetRes := none, closeNetRes := none,
    openMntRes := .ok (), setnsMntRes := none, closeMntRes := none }

/-- A fully successful concrete call: a NUL-free namespace path, pipe and
fork succeed, all namespace switches succeed, the logic returns `true`,
the child writes everything, ten reads of up to 256 bytes are scheduled,
and the reader beats the deadline. -/
def happyCall : CallIn Bool :=
  { ns := strB "/proc/42/ns", pipeOk := true, forkOk := true,
    cenv := okChildEnv, logicOut := some true, logicErr := none,
    writeCut := none, readPlan := List.replicate 10 (.size 256),
    deadlineFirst := false, killOk := true }

/-- C3: for every serializable value `V`, the child's encoding of a
successful result (marshal `V`, add the `ok:` tag, append the NUL
sentinel) followed by the parent's decoding (strip sentinel, strip the
`ok:` tag, unmarshal) yields `V` back: every call whose logic returns `V`
before the deadline returns `V` to the caller. Serializability is the
round-trip hypothesis `hun` on the marshalling pair, and `hnul` states
that the marshalled payload is NUL-free (true of JSON text). -/
theorem callRoundTrip (marshal : Option T → Except Bytes Bytes)
    (unm : Bytes → T → Option T) (zeroT : T) (v : T) (c : CallIn T)
    (hns : (0 : Nat) ∉ c.ns) (hp : c.pipeOk = true) (hf : c.forkOk = true)
    (hdl : c.deadlineFirst = false) (hwc : c.writeCut = none)
    (hsw : (switchNs c.cenv).1 = none)
    (hlo : c.logicOut = some v) (hle : c.logicErr = none)
    (base : Bytes) (hm : marshal (some v) = .ok base)
    (hnul : (0 : Nat) ∉ base) (hun : unm base zeroT = some v)
    (hplan : GoodPlan c.readPlan)
    (hlen : (okTag ++ base ++ [0]).length ≤ c.readPlan.length) :
    (ForkAndSwitchToNamespace marshal unm zeroT c).1 =
      .parent (.ok v) :=
  call_delivers_ok marshal unm zeroT c hns hp hf hdl hwc hsw hle base
    (by rw [hlo]; exact hm) hnul v hun hplan hlen

/-- Witness for C3 at a concrete input: the happy call with logic result
`true` returns `true`. -/
theorem callRoundTrip_witness :
    (ForkAndSwitchToNamespace boolMarshal boolUnm false happyCall).1 =
      .parent (.ok true) :=
  callRoundTrip boolMarshal boolUnm false true happyCall (by decide) rfl
    rfl rfl rfl (by decide) rfl rfl (strB "true") rfl (by decide)
    (by decide) (by decide) (by decide)

/-- C10: if the caller-supplied logic returns `(nil, nil)`, the child
marshals the nil pointer to `null` and sends `ok:null`; the parent
unmarshals `null` into a freshly allocated zero value of `T` (a no-op),
so the call returns the `ok` outcome carrying the zero value of `T` — in
the source, `return &unmarshalled, nil` (line 94), a non-nil pointer to
the zero value with a nil error. The hypotheses `hm` and `hun` are the
`encoding/json` facts the claim relies on: a nil pointer marshals to
`null`, and unmarshalling `null` leaves the target untouched. -/
theorem callNilLogicResult (marshal : Option T → Except Bytes Bytes)
    (unm : Bytes → T → Option T) (zeroT : T) (c : CallIn T)
    (hns : (0 : Nat) ∉ c.ns) (hp : c.pipeOk = true) (hf : c.forkOk = true)
    (hdl : c.deadlineFirst = false) (hwc : c.writeCut = none)
    (hsw : (switchNs c.cenv).1 = none)
    (hlo : c.logicOut = none) (hle : c.logicErr = none)
    (hm : marshal none = .ok (strB "null"))
    (hun : unm (strB "null") zeroT = some zeroT)
    (hplan : GoodPlan c.readPlan)
    (hlen : (okTag ++ strB "null" ++ [0]).length ≤ c.readPlan.length) :
    (ForkAndSwitchToNamespace marshal unm zeroT c).1 =
      .parent (.ok zeroT) :=
  call_delivers_ok marshal unm zeroT c hns hp hf hdl hwc hsw hle
    (strB "null") (by rw [hlo]; exact hm) (by decide) zeroT hun hplan hlen

/-- Witness for C10 at a concrete input: the happy call whose logic
returns `(nil, nil)` yields the zero value `false`, not a nil result. -/
theorem callNilLogicResult_witness :
    (ForkAndSwitchToNamespace boolMarshal boolUnm false
        { happyCall with logicOut := none }).1 =
      .parent (.ok false) :=
  callNilLogicResult boolMarshal boolUnm false
    { happyCall with logicOut := none } (by decide) rfl rfl rfl rfl
    (by decide) rfl rfl rfl (by decide) (by decide) (by decide)

/-- C4: whenever the deadline fires before the reader delivers, the call
returns the timeout error (for every kill outcome `c.killOk`, so a failed
signal does not change the returned error), a kill of the child is
attempted, a failed kill is logged, and no decode is ever attempted. -/
theorem callTimeout (marshal : Option T → Except Bytes Bytes)
    (unm : Bytes → T → Option T) (zeroT : T) (c : CallIn T)
    (hns : (0 : Nat) ∉ c.ns) (hp : c.pipeOk = true) (hf : c.forkOk = true)
    (hdl : c.deadlineFirst = true) :
    (ForkAndSwitchToNamespace marshal unm zeroT c).1 = .parent .timeout ∧
    (ForkAndSwitchToNamespace marshal unm zeroT c).2.killAttempt = true ∧
    PAct.decode ∉ (ForkAndSwitchToNamespace marshal unm zeroT c).2.parentActs ∧
    (ForkAndSwitchToNamespace marshal unm zeroT c).2.killFailLogged =
      !c.killOk := by
  rw [ForkAndSwitchToNamespace_postClone marshal unm zeroT c hns hp hf,
    postClone]
  simp [hdl]

/-- Witness for C4 at a concrete input: the happy call with the deadline
firing first and the kill failing still returns the timeout error. -/
theorem callTimeout_witness :
    (ForkAndSwitchToNamespace boolMarshal boolUnm false
        { happyCall with deadlineFirst := true, killOk := false }).1 =
        .parent .timeout ∧
      (ForkAndSwitchToNamespace boolMarshal boolUnm false
        { happyCall with deadlineFirst := true, killOk := false
        }).2.killAttempt = true ∧
      PAct.decode ∉ (ForkAndSwitchToNamespace boolMarshal boolUnm false
        { happyCall with deadlineFirst := true, killOk := false
        }).2.parentActs ∧
      (ForkAndSwitchToNamespace boolMarshal boolUnm false
        { happyCall with deadlineFirst := true, killOk := false
        }).2.killFailLogged = !false :=
  callTimeout boolMarshal boolUnm false
    { happyCall with deadlineFirst := true, killOk := false } (by decide)
    rfl rfl rfl

/-- C5: whenever the reader delivers a non-empty buffer whose final byte is
not NUL, the call fails with the `invalid termination` protocol error —
however much valid-looking data preceded it, it is never a success. -/
theorem callInvalidTermination (marshal : Option T → Except Bytes Bytes)
    (unm : Bytes → T → Option T) (zeroT : T) (c : CallIn T)
    (hns : (0 : Nat) ∉ c.ns) (hp : c.pipeOk = true) (hf : c.forkOk = true)
    (hdl : c.deadlineFirst = false) (r : ReaderOut)
    (hrd : readerLoop [] (pipeReads (childStream marshal c) c.readPlan) =
      some r)
    (b : Nat) (hlast : r.delivered.getLast? = some b) (hb : b ≠ 0) :
    (ForkAndSwitchToNamespace marshal unm zeroT c).1 =
      .parent .invalidTermination := by
  rw [ForkAndSwitchToNamespace_postClone marshal unm zeroT c hns hp hf,
    postClone]
  simp only [hdl, hrd]
  simp [decodeBuf_badLast unm zeroT r.delivered b hlast hb]

/-- Witness for C5 at a concrete input: the happy call truncated one byte
early, so the pipe holds `ok:true` with no trailing NUL; the parent
accumulates it, hits EOF, and reports invalid termination. -/
theorem callInvalidTermination_witness :
    (ForkAndSwitchToNamespace boolMarshal boolUnm false
        { happyCall with writeCut := some 7,
                         readPlan := [.size 300, .size 300] }).1 =
      .parent .invalidTermination :=
  callInvalidTermination boolMarshal boolUnm false
    { happyCall with writeCut := some 7,
                     readPlan := [.size 300, .size 300] }
    (by decide) rfl rfl rfl ⟨strB "ok:true", true⟩ (by decide) 101
    (by decide) (by decide)

/-- C9: whenever the reader delivers an empty byte sequence — its first
read fails (it sends the nil buffer), or the pipe is at EOF before any
byte arrived — the parent's sentinel check indexes `buf[len(buf)-1]` of a
zero-length slice and the call panics instead of returning any value. -/
theorem callPanicsOnEmptyDelivery (marshal : Option T → Except Bytes Bytes)
    (unm : Bytes → T → Option T) (zeroT : T) (c : CallIn T)
    (hns : (0 : Nat) ∉ c.ns) (hp : c.pipeOk = true) (hf : c.forkOk = true)
    (hdl : c.deadlineFirst = false)
    (hcause : (∃ rest, c.readPlan = ReadEvent.fail :: rest) ∨
      (c.readPlan ≠ [] ∧ childStream marshal c = [])) :
    (ForkAndSwitchToNamespace marshal unm zeroT c).1 =
      .parent .panicOutOfBounds := by
  rw [ForkAndSwitchToNamespace_postClone marshal unm zeroT c hns hp hf,
    postClone]
  have hrd : ∃ cr,
      readerLoop [] (pipeReads (childStream marshal c) c.readPlan) =
        some ⟨[], cr⟩ := by
    rcases hcause with ⟨rest, hplan⟩ | ⟨hne, hstream⟩
    · exact ⟨false, by rw [hplan]; rfl⟩
    · obtain ⟨e, rest, hplan⟩ := List.exists_cons_of_ne_nil hne
      cases e with
      | fail => exact ⟨false, by rw [hplan]; rfl⟩
      | size n =>
        refine ⟨true, ?_⟩
        rw [hplan, hstream]
        simp [pipeReads, readerLoop]
  obtain ⟨cr, hrd⟩ := hrd
  simp only [hdl, hrd]
  simp [decodeBuf_nil]

/-- Witness for C9 at a concrete input: a failing first read makes the
happy call panic. -/
theorem callPanicsOnEmptyDelivery_witness :
    (ForkAndSwitchToNamespace boolMarshal boolUnm false
        { happyCall with readPlan := [.fail] }).1 =
      .parent .panicOutOfBounds :=
  callPanicsOnEmptyDelivery boolMarshal boolUnm false
    { happyCall with readPlan := [.fail] } (by decide) rfl rfl rfl
    (Or.inl ⟨[], rfl⟩)

/-- C1 (failing input): when the raw read on the pipe fails, the reader
delivers the empty buffer and the call panics out of bounds — none of the
four terminal outcomes (successful decode, error decode, protocol error,
timeout) is delivered to the caller, so a call can deliver zero of them. -/
theorem callDeliversNoOutcomeOnReadError :
    (ForkAndSwitchToNamespace boolMarshal boolUnm false
        { happyCall with writeCut := some 0, readPlan := [.fail] }).1 =
      .parent .panicOutOfBounds := by decide

/-- A concrete call whose namespace ref lacks the `net` handle file: the
child's `open` of it fails with `ENOENT`; everything else succeeds. -/
def missingNetCall : CallIn Bool :=
  { happyCall with
    cenv := { okChildEnv with
              openNetRes := .error (strB "no such file or directory") },
    readPlan := List.replicate 100 (.size 256) }

/-- C2 counterexample: with a nonexistent `net` handle file the clone DOES
occur (`cloned = true`), refuting `no child process is ever created for
such a call` and `fails before any process clone occurs`; the returned
error is the child-relayed open failure, not a pre-clone setup error. -/
theorem missingNetClones_cex :
    (ForkAndSwitchToNamespace boolMarshal boolUnm false
        missingNetCall).2.cloned = true ∧
      (ForkAndSwitchToNamespace boolMarshal boolUnm false
        missingNetCall).1 =
        .parent (.errMsg
          (wrapMsg openNetLabel (strB "no such file or directory"))) := by
  decide

/-- C2 (amended): a nonexistent `net` handle is not detected before the
clone — path setup (`BytePtrFromString`) fails only on NUL bytes in the
path. The child is created, its `open` of the net handle fails with the
kernel error `e`, and the parent receives the error decode whose message
wraps `failed to open net namespace` around `e`. -/
theorem missingNetFailsAfterClone (marshal : Option T → Except Bytes Bytes)
    (unm : Bytes → T → Option T) (zeroT : T) (c : CallIn T) (e : Bytes)
    (hns : (0 : Nat) ∉ c.ns) (hp : c.pipeOk = true) (hf : c.forkOk = true)
    (hdl : c.deadlineFirst = false) (hwc : c.writeCut = none)
    (hopen : c.cenv.openNetRes = .error e) (hnul : (0 : Nat) ∉ e)
    (hplan : GoodPlan c.readPlan)
    (hlen : (errTag ++ wrapMsg openNetLabel e ++ [0]).length ≤
      c.readPlan.length) :
    (ForkAndSwitchToNamespace marshal unm zeroT c).1 =
        .parent (.errMsg (wrapMsg openNetLabel e)) ∧
      (ForkAndSwitchToNamespace marshal unm zeroT c).2.cloned = true := by
  have hsw : (switchNs c.cenv).1 = some (wrapMsg openNetLabel e) := by
    simp [switchNs, hopen]
  have hmsg := childMsg_switchErr marshal c.cenv c.logicOut c.logicErr _ hsw
  have hnulm : (0 : Nat) ∉ wrapMsg openNetLabel e := by
    intro h
    rw [wrapMsg] at h
    rcases List.mem_append.mp h with h | h
    · rcases List.mem_append.mp h with h | h
      · exact absurd h (by decide)
      · exact absurd h (by decide)
    · exact hnul h
  have hbody : (0 : Nat) ∉ errTag ++ wrapMsg openNetLabel e := by
    intro h
    rcases List.mem_append.mp h with h | h
    · exact absurd h (by decide)
    · exact hnulm h
  have hcall := call_decodes_msg marshal unm zeroT c hns hp hf hdl hwc
    (errTag ++ wrapMsg openNetLabel e) (by rw [hmsg, List.append_assoc])
    hbody hplan (by simpa using hlen)
  rw [hcall]
  have h1 : (errTag ++ wrapMsg openNetLabel e) ++ [0] =
      errTag ++ wrapMsg openNetLabel e ++ [0] := List.append_assoc _ _ _
  exact ⟨congrArg CallOutcome.parent (decodeBuf_errMsg unm zeroT _), rfl⟩

/-- Witness for the amended C2 at a concrete input: the concrete
missing-net call relays exactly the wrapped `ENOENT` message and clones. -/
theorem missingNetFailsAfterClone_witness :
    (ForkAndSwitchToNamespace boolMarshal boolUnm false missingNetCall).1 =
        .parent (.errMsg
          (wrapMsg openNetLabel (strB "no such file or directory"))) ∧
      (ForkAndSwitchToNamespace boolMarshal boolUnm false
        missingNetCall).2.cloned = true :=
  missingNetFailsAfterClone boolMarshal boolUnm false missingNetCall
    (strB "no such file or directory") (by decide) rfl rfl rfl rfl rfl
    (by decide) (by decide) (by decide)

/-- The first failing network-namespace step of `switchNs`, paired with
the wrapped error message that names it; `none` when all three network
steps succeed. Helper for stating C6. -/
def firstNetFailure (env : ChildEnv) : Option Bytes :=
  match env.openNetRes with
  | .error e => some (wrapMsg openNetLabel e)
  | .ok _ =>
    match env.setnsNetRes with
    | some e => some (wrapMsg setnsNetLabel e)
    | none =>
      match env.closeNetRes with
      | some e => some (wrapMsg closeNetLabel e)
      | none => none

/-- On a network-step failure, `switchNs` returns the message naming that
step and attempts no mount-namespace step. -/
theorem switchNs_netFailure (env : ChildEnv) (m : Bytes)
    (hfail : firstNetFailure env = some m) :
    (switchNs env).1 = some m ∧
      ((switchNs env).2 = [NsStep.openNet] ∨
        (switchNs env).2 =
          [NsStep.openNet, NsStep.setnsNet, NsStep.closeNet]) := by
  rw [firstNetFailure] at hfail
  rw [switchNs]
  cases hopen : env.openNetRes with
  | error e =>
    rw [hopen] at hfail
    simp only [Option.some.injEq] at hfail
    simp [hfail]
  | ok u =>
    rw [hopen] at hfail
    cases hset : env.setnsNetRes with
    | some e =>
      rw [hset] at hfail
      simp only [Option.some.injEq] at hfail
      simp [hfail]
    | none =>
      rw [hset] at hfail
      cases hclose : env.closeNetRes with
      | some e =>
        rw [hclose] at hfail
        simp only [Option.some.injEq] at hfail
        simp [hfail]
      | none =>
        rw [hclose] at hfail
        exact absurd hfail (by simp)

/-- C6: if any network-namespace step (open, setns-join, or close of the
net handle) fails in the child, no mount-namespace step is attempted, the
caller-supplied logic never runs, and the error surfaced to the parent is
the message naming the failing network step. -/
theorem callNetFailureFailsFast (marshal : Option T → Except Bytes Bytes)
    (unm : Bytes → T → Option T) (zeroT : T) (c : CallIn T) (m : Bytes)
    (hns : (0 : Nat) ∉ c.ns) (hp : c.pipeOk = true) (hf : c.forkOk = true)
    (hdl : c.deadlineFirst = false) (hwc : c.writeCut = none)
    (hfail : firstNetFailure c.cenv = some m) (hnul : (0 : Nat) ∉ m)
    (hplan : GoodPlan c.readPlan)
    (hlen : (errTag ++ m ++ [0]).length ≤ c.readPlan.length) :
    NsStep.openMnt ∉
        (ForkAndSwitchToNamespace marshal unm zeroT c).2.nsSteps ∧
      NsStep.setnsMnt ∉
        (ForkAndSwitchToNamespace marshal unm zeroT c).2.nsSteps ∧
      NsStep.closeMnt ∉
        (ForkAndSwitchToNamespace marshal unm zeroT c).2.nsSteps ∧
      (ForkAndSwitchToNamespace marshal unm zeroT c).2.logicRan = false ∧
      (ForkAndSwitchToNamespace marshal unm zeroT c).1 =
        .parent (.errMsg m) := by
  obtain ⟨hsw, hsteps⟩ := switchNs_netFailure c.cenv m hfail
  have hmsg := childMsg_switchErr marshal c.cenv c.logicOut c.logicErr _ hsw
  have hbody : (0 : Nat) ∉ errTag ++ m := by
    intro h
    rcases List.mem_append.mp h with h | h
    · exact absurd h (by decide)
    · exact hnul h
  have hcall := call_decodes_msg marshal unm zeroT c hns hp hf hdl hwc
    (errTag ++ m) (by rw [hmsg, List.append_assoc]) hbody hplan
    (by simpa using hlen)
  rw [hcall]
  have h1 : (errTag ++ m) ++ [0] = errTag ++ m ++ [0] :=
    List.append_assoc _ _ _
  refine ⟨?_, ?_, ?_, ?_,
    congrArg CallOutcome.parent (decodeBuf_errMsg unm zeroT _)⟩
  · rcases hsteps with h | h <;> simp [h, hsw]
  · rcases hsteps with h | h <;> simp [h, hsw]
  · rcases hsteps with h | h <;> simp [h, hsw]
  · simp [hsw]

/-- Witness for C6 at a concrete input: a failed `setns` join of the net
namespace surfaces `failed to setns net namespace: operation not
permitted`, the mount steps are never attempted and the logic never
runs. -/
theorem callNetFailureFailsFast_witness :
    NsStep.openMnt ∉
        (ForkAndSwitchToNamespace boolMarshal boolUnm false
          { happyCall with
            cenv := { okChildEnv with
                      setnsNetRes := some (strB "operation not permitted")
            },
            readPlan := List.replicate 100 (.size 256) }).2.nsSteps ∧
      NsStep.setnsMnt ∉
        (ForkAndSwitchToNamespace boolMarshal boolUnm false
          { happyCall with
            cenv := { okChildEnv with
                      setnsNetRes := some (strB "operation not permitted")
            },
            readPlan := List.replicate 100 (.size 256) }).2.nsSteps ∧
      NsStep.closeMnt ∉
        (ForkAndSwitchToNamespace boolMarshal boolUnm false
          { happyCall with
            cenv := { okChildEnv with
                      setnsNetRes := some (strB "operation not permitted")
            },
            readPlan := List.replicate 100 (.size 256) }).2.nsSteps ∧
      (ForkAndSwitchToNamespace boolMarshal boolUnm false
          { happyCall with
            cenv := { okChildEnv with
                      setnsNetRes := some (strB "operation not permitted")
            },
            readPlan := List.replicate 100 (.size 256) }).2.logicRan = false ∧
      (ForkAndSwitchToNamespace boolMarshal boolUnm false
          { happyCall with
            cenv := { okChildEnv with
                      setnsNetRes := some (strB "operation not permitted")
            },
            readPlan := List.replicate 100 (.size 256) }).1 =
        .parent (.errMsg
          (wrapMsg setnsNetLabel (strB "operation not permitted"))) :=
  callNetFailureFailsFast boolMarshal boolUnm false
    { happyCall with
      cenv := { okChildEnv with
                setnsNetRes := some (strB "operation not permitted") },
      readPlan := List.replicate 100 (.size 256) }
    (wrapMsg setnsNetLabel (strB "operation not permitted")) (by decide)
    rfl rfl rfl rfl (by decide) (by decide) (by decide) (by decide)

/-- C7 counterexample: when the fork syscall fails, the call does return
the `failed to fork` error with no child created, but the pipe file
descriptors created just before are NOT closed — no close happens at all,
refuting `both file descriptors of the pipe ... are closed before the
function returns`. -/
theorem forkFailLeaksPipe_cex :
    (ForkAndSwitchToNamespace boolMarshal boolUnm false
          { happyCall with forkOk := false }).1 = .forkFail ∧
      (ForkAndSwitchToNamespace boolMarshal boolUnm false
          { happyCall with forkOk := false }).2.cloned = false ∧
      (ForkAndSwitchToNamespace boolMarshal boolUnm false
          { happyCall with forkOk := false }).2.parentCloses = [] ∧
      (ForkAndSwitchToNamespace boolMarshal boolUnm false
          { happyCall with forkOk := false }).2.childCloses = [] := by
  decide

/-- C7 (amended): whenever the fork syscall fails, no child exists and the
call returns the wrapped `failed to fork` error — but it performs no
cleanup: the whole trace is empty, in particular neither pipe end is
closed (lines 40-42 return immediately, leaking both descriptors). -/
theorem forkFailNoCleanup (marshal : Option T → Except Bytes Bytes)
    (unm : Bytes → T → Option T) (zeroT : T) (c : CallIn T)
    (hns : (0 : Nat) ∉ c.ns) (hp : c.pipeOk = true)
    (hf : c.forkOk = false) :
    ForkAndSwitchToNamespace marshal unm zeroT c =
      (.forkFail, emptyTrace) := by
  rw [ForkAndSwitchToNamespace,
    bytePtrFromString_join c.ns (strB "mnt") hns (by decide),
    bytePtrFromString_join c.ns (strB "net") hns (by decide), hp, hf]
  simp

/-- Witness for the amended C7 at a concrete input. -/
theorem forkFailNoCleanup_witness :
    ForkAndSwitchToNamespace boolMarshal boolUnm false
        { happyCall with forkOk := false } =
      (.forkFail, emptyTrace) :=
  forkFailNoCleanup boolMarshal boolUnm false
    { happyCall with forkOk := false } (by decide) rfl rfl

/-- C8 counterexample: after a successful clone of the fully successful
concrete call, the child branch closes only its write end — it never
closes its copy of the read end (there is no `close_raw(pipes[0])` in the
child branch), refuting `the child closes its copy of the read end and
later closes the write end`. -/
theorem childNeverClosesReadEnd_cex :
    (ForkAndSwitchToNamespace boolMarshal boolUnm false
          happyCall).2.childCloses = [PipeEnd.writeEnd] ∧
      PipeEnd.readEnd ∉
        (ForkAndSwitchToNamespace boolMarshal boolUnm false
          happyCall).2.childCloses := by
  decide

/-- C8 (amended): on every execution path after a successful clone, the
parent closes its copy of the write end first and closes the read end
exactly when the reader goroutine's loop breaks (so not on the read-error
path), while the child closes only the write end: its read-end copy is
released only by process exit, never by an explicit close. -/
theorem pipeCloseDiscipline (marshal : Option T → Except Bytes Bytes)
    (unm : Bytes → T → Option T) (zeroT : T) (c : CallIn T)
    (hns : (0 : Nat) ∉ c.ns) (hp : c.pipeOk = true)
    (hf : c.forkOk = true) :
    (ForkAndSwitchToNamespace marshal unm zeroT c).2.childCloses =
        [PipeEnd.writeEnd] ∧
      (ForkAndSwitchToNamespace marshal unm zeroT c).2.parentCloses =
        PipeEnd.writeEnd ::
          (match readerLoop []
              (pipeReads (childStream marshal c) c.readPlan) with
           | some r => if r.closedRead then [PipeEnd.readEnd] else []
           | none => []) := by
  rw [ForkAndSwitchToNamespace_postClone marshal unm zeroT c hns hp hf,
    postClone]
  cases hdl : c.deadlineFirst <;>
    cases hrd : readerLoop [] (pipeReads (childStream marshal c) c.readPlan) <;>
      simp [hdl, hrd]

/-- Witness for the amended C8 at a concrete input: on the read-error path
the parent closes only the write end (the reader never broke, so the read
end stays open), and the child closes only the write end. -/
theorem pipeCloseDiscipline_witness :
    (ForkAndSwitchToNamespace boolMarshal boolUnm false
          { happyCall with logicOut := some false,
                           readPlan := [.fail] }).2.childCloses =
        [PipeEnd.writeEnd] ∧
      (ForkAndSwitchToNamespace boolMarshal boolUnm false
          { happyCall with logicOut := some false,
                           readPlan := [.fail] }).2.parentCloses =
        PipeEnd.writeEnd ::
          (match readerLoop []
              (pipeReads
                (childStream boolMarshal
                  { happyCall with logicOut := some false,
                                   readPlan := [.fail] })
                [ReadEvent.fail]) with
           | some r => if r.closedRead then [PipeEnd.readEnd] else []
           | none => []) :=
  pipeCloseDiscipline boolMarshal boolUnm false
    { happyCall with logicOut := some false, readPlan := [.fail] }
    (by decide) rfl rfl

end NsEvaluator
